import Mathlib

/-!
Shallow embedding of the pomodoro timer core from src/main.rs.

Time is modelled by a monotonic clock reading in nanoseconds (a `Nat`);
`std::time::Instant` values become such readings, and every operation that
calls `Instant::now()` takes the current reading `now` as an explicit
parameter (all reads of the clock within one operation are identified).
`Duration::as_secs` truncates to whole seconds, i.e. divides by 10^9.
Rust `u64`/`u32` fields are modelled by `Nat`; the only subtraction in the
source (`focus_remaining -= elapsed`, `break_remaining -= elapsed`) is
guarded by `remaining > elapsed`, where `Nat` subtraction agrees with `u64`
subtraction, and `Instant::duration_since` saturates at zero exactly as
`Nat` subtraction does.
-/

/-- Nanoseconds per second, the resolution of the modelled monotonic clock. -/
def nanosPerSec : Nat := 1000000000

/-- The enum `TimerState` from src/main.rs. -/
inductive TimerState where
  | Focus
  | Break
  | Paused
deriving DecidableEq, Repr

/-- The struct `PomodoroTimer` from src/main.rs. `last_update` and
`flash_timer` are `Instant`s, modelled as clock readings in nanoseconds. -/
structure PomodoroTimer where
  focus_remaining : Nat
  break_remaining : Nat
  focus_duration : Nat
  break_duration : Nat
  state : TimerState
  last_update : Nat
  total_cycles : Nat
  notification_flash : Bool
  flash_timer : Nat
deriving DecidableEq, Repr

namespace PomodoroTimer

/-- `PomodoroTimer::new`: both `Instant::now()` calls are the reading `now`. -/
def new (focus_minutes break_minutes now : Nat) : PomodoroTimer :=
  let focus_duration := focus_minutes * 60
  let break_duration := break_minutes * 60
  { focus_remaining := focus_duration
    break_remaining := break_duration
    focus_duration := focus_duration
    break_duration := break_duration
    state := TimerState.Focus
    last_update := now
    total_cycles := 0
    notification_flash := false
    flash_timer := now }

/-- The whole seconds elapsed since the last accounting step:
`now.duration_since(self.last_update).as_secs()` in `PomodoroTimer::update`. -/
def elapsedSecs (s : PomodoroTimer) (now : Nat) : Nat :=
  (now - s.last_update) / nanosPerSec

/-- `PomodoroTimer::update`: one accounting step at clock reading `now`.
Returns the post-state together with the `sound_needed` flag. -/
def update (s : PomodoroTimer) (now : Nat) : PomodoroTimer × Bool :=
  let elapsed := elapsedSecs s now
  let s1 := { s with last_update := now }
  let step : PomodoroTimer × Bool :=
    match s1.state with
    | TimerState.Focus =>
        if s1.focus_remaining > elapsed then
          ({ s1 with focus_remaining := s1.focus_remaining - elapsed }, false)
        else
          ({ s1 with focus_remaining := 0
                     state := TimerState.Break
                     total_cycles := s1.total_cycles + 1
                     notification_flash := true
                     flash_timer := now }, true)
    | TimerState.Break =>
        if s1.break_remaining > elapsed then
          ({ s1 with break_remaining := s1.break_remaining - elapsed }, false)
        else
          ({ s1 with break_remaining := s1.break_duration
                     focus_remaining := s1.focus_duration
                     state := TimerState.Focus
                     notification_flash := true
                     flash_timer := now }, true)
    | TimerState.Paused => (s1, false)
  let s2 :=
    if step.1.notification_flash ∧ now - step.1.flash_timer > 2 * nanosPerSec then
      { step.1 with notification_flash := false }
    else
      step.1
  (s2, step.2)

/-- `PomodoroTimer::toggle_pause` at clock reading `now`. -/
def toggle_pause (s : PomodoroTimer) (now : Nat) : PomodoroTimer :=
  let newState :=
    match s.state with
    | TimerState.Focus => TimerState.Paused
    | TimerState.Break => TimerState.Paused
    | TimerState.Paused => TimerState.Focus
  { s with state := newState, last_update := now }

/-- `PomodoroTimer::reset` at clock reading `now`. -/
def reset (s : PomodoroTimer) (now : Nat) : PomodoroTimer :=
  { s with focus_remaining := s.focus_duration
           break_remaining := s.break_duration
           state := TimerState.Focus
           last_update := now
           notification_flash := false }

/-- `PomodoroTimer::adjust_focus_time`. -/
def adjust_focus_time (s : PomodoroTimer) (minutes : Nat) : PomodoroTimer :=
  let s1 := { s with focus_duration := minutes * 60 }
  if s1.state = TimerState.Focus then
    { s1 with focus_remaining := s1.focus_duration }
  else
    s1

/-- `PomodoroTimer::adjust_break_time`. -/
def adjust_break_time (s : PomodoroTimer) (minutes : Nat) : PomodoroTimer :=
  let s1 := { s with break_duration := minutes * 60 }
  if s1.state = TimerState.Break then
    { s1 with break_remaining := s1.break_duration }
  else
    s1

/-- `PomodoroTimer::format_time`. -/
def format_time (seconds : Nat) : String :=
  let minutes := seconds / 60
  let secs := seconds % 60
  let pad := fun (n : Nat) =>
    if n < 10 then "0" ++ toString n else toString n
  pad minutes ++ ":" ++ pad secs

/-- The font table `digits` inside `PomodoroTimer::get_ascii_digits`:
eleven glyphs (digits 0 to 9 and the colon), five rows each. -/
def digits : List (List String) :=
  [ [ " ██████  ",
      "██    ██ ",
      "██    ██ ",
      "██    ██ ",
      " ██████  " ],
    [ "   ██    ",
      " ████    ",
      "   ██    ",
      "   ██    ",
      " ██████  " ],
    [ " ██████  ",
      "      ██ ",
      " ██████  ",
      "██       ",
      "████████ " ],
    [ " ██████  ",
      "      ██ ",
      " ██████  ",
      "      ██ ",
      " ██████  " ],
    [ "██    ██ ",
      "██    ██ ",
      "████████ ",
      "      ██ ",
      "      ██ " ],
    [ "████████ ",
      "██       ",
      "███████  ",
      "      ██ ",
      "███████  " ],
    [ " ██████  ",
      "██       ",
      "███████  ",
      "██    ██ ",
      " ██████  " ],
    [ "████████ ",
      "      ██ ",
      "    ██   ",
      "  ██     ",
      "██       " ],
    [ " ██████  ",
      "██    ██ ",
      " ██████  ",
      "██    ██ ",
      " ██████  " ],
    [ " ██████  ",
      "██    ██ ",
      " ███████ ",
      "      ██ ",
      " ██████  " ],
    [ "         ",
      "   ██    ",
      "         ",
      "   ██    ",
      "         " ] ]

/-- The closure `char_to_index` inside `PomodoroTimer::get_ascii_digits`:
digits map to 0 to 9, a colon to 10, and any other character to 10. -/
def char_to_index (c : Char) : Nat :=
  if '0' ≤ c ∧ c ≤ '9' then c.toNat - '0'.toNat
  else if c = ':' then 10
  else 10

/-- The glyph selected for a character: `digits[char_to_index(ch)]` in the
source. The index is always at most 10, so the `getD` default is never hit. -/
def glyphFor (c : Char) : List String :=
  digits.getD (char_to_index c) []

/-- `PomodoroTimer::get_ascii_digits`: starts from five empty rows and, for
each input character in order, appends row i of its glyph to result row i. -/
def get_ascii_digits (time_str : String) : List String :=
  time_str.data.foldl
    (fun result ch => List.zipWith (fun r line => r ++ line) result (glyphFor ch))
    (List.replicate 5 "")

/-- The two range invariants of the data model spec: remaining time never
exceeds the configured duration, for either phase. The lower bounds
0 ≤ focus_remaining and 0 ≤ break_remaining hold by the Nat type, matching
the unsigned u64 fields of the source. -/
def TimerInv (s : PomodoroTimer) : Prop :=
  s.focus_remaining ≤ s.focus_duration ∧ s.break_remaining ≤ s.break_duration

/-- A character index into the font table is always in bounds. -/
lemma char_to_index_lt (c : Char) : char_to_index c < 11 := by
  unfold char_to_index
  split
  · rename_i h
    have h9 : c.toNat ≤ 57 := h.2
    have h0 : Char.toNat '0' = 48 := rfl
    omega
  · split <;> omega

/-- Every entry of the font table has five rows of nine characters each. -/
lemma digits_getD_spec : ∀ n < 11,
    (digits.getD n []).length = 5 ∧ ∀ r ∈ digits.getD n [], r.length = 9 := by
  decide

/-- Every glyph has exactly five rows. -/
lemma glyphFor_length (c : Char) : (glyphFor c).length = 5 :=
  (digits_getD_spec _ (char_to_index_lt c)).1

/-- Every row of every glyph has exactly nine characters. -/
lemma glyphFor_rows (c : Char) : ∀ r ∈ glyphFor c, r.length = 9 :=
  (digits_getD_spec _ (char_to_index_lt c)).2

/-- A member of a pointwise append of two string lists is an append of a
member of each. -/
lemma mem_zipWith_append {as bs : List String} {r : String}
    (h : r ∈ List.zipWith (fun a b => a ++ b) as bs) :
    ∃ a ∈ as, ∃ b ∈ bs, r = a ++ b := by
  induction as generalizing bs with
  | nil => simp at h
  | cons a as ih =>
    cases bs with
    | nil => simp at h
    | cons b bs =>
      simp only [List.zipWith, List.mem_cons] at h
      rcases h with h | h
      · exact ⟨a, by simp, b, by simp, h⟩
      · obtain ⟨x, hx, y, hy, hr⟩ := ih h
        exact ⟨x, by simp [hx], y, by simp [hy], hr⟩

/-- Invariant of the renderer loop: starting from five rows of a common
width, folding the glyph-append step over a character list keeps five rows
and grows every row by nine characters per input character. -/
lemma fold_shape (l : List Char) (acc : List String) (k : Nat)
    (hlen : acc.length = 5) (hrow : ∀ r ∈ acc, r.length = k) :
    (l.foldl (fun result ch =>
        List.zipWith (fun r line => r ++ line) result (glyphFor ch)) acc).length = 5 ∧
    ∀ r ∈ l.foldl (fun result ch =>
        List.zipWith (fun r line => r ++ line) result (glyphFor ch)) acc,
      r.length = k + 9 * l.length := by
  induction l generalizing acc k with
  | nil => simpa using ⟨hlen, hrow⟩
  | cons c cs ih =>
    simp only [List.foldl_cons]
    have hlen1 : (List.zipWith (fun r line => r ++ line) acc (glyphFor c)).length = 5 := by
      simp [List.length_zipWith, hlen, glyphFor_length]
    have hrow1 : ∀ r ∈ List.zipWith (fun r line => r ++ line) acc (glyphFor c),
        r.length = k + 9 := by
      intro r hr
      obtain ⟨a, ha, b, hb, rfl⟩ := mem_zipWith_append hr
      have := hrow a ha
      have := glyphFor_rows c b hb
      simp [String.length_append, *]
    have h := ih _ (k + 9) hlen1 hrow1
    constructor
    · exact h.1
    · intro r hr
      have hlen2 := h.2 r hr
      simp only [List.length_cons] at hlen2 ⊢
      omega

/-- C1, counterexample: the claimed invariant fails on the code. From the
initial state of a 25-minute focus and 5-minute break timer, adjusting the
break duration to 1 minute while the Break phase is not active leaves
break_remaining = 300 above break_duration = 60. -/
theorem C1_counterexample :
    ¬ (((new 25 5 0).adjust_break_time 1).break_remaining ≤
       ((new 25 5 0).adjust_break_time 1).break_duration) := by
  decide

/-- C1, amended: construction, the accounting step, toggle_pause and reset
establish or preserve both range invariants, and so does adjusting a
duration when the corresponding phase is active, or when the new duration
is at least the current remaining time of that phase. Adjusting an
inactive phase below its current remaining is the one operation that can
break the upper bound. -/
theorem C1_invariant_bounds (s : PomodoroTimer) (h : TimerInv s) (f b m now : Nat) :
    TimerInv (new f b now) ∧
    TimerInv (s.update now).1 ∧
    TimerInv (s.toggle_pause now) ∧
    TimerInv (s.reset now) ∧
    ((s.state = TimerState.Focus ∨ s.focus_remaining ≤ m * 60) →
      TimerInv (s.adjust_focus_time m)) ∧
    ((s.state = TimerState.Break ∨ s.break_remaining ≤ m * 60) →
      TimerInv (s.adjust_break_time m)) := by
  obtain ⟨fr, br, fd, bd, st, lu, tc, nf, ft⟩ := s
  obtain ⟨h1, h2⟩ := h
  simp only [TimerInv] at h1 h2 ⊢
  refine ⟨by simp [new], ?_, ⟨h1, h2⟩, by simp [reset], ?_, ?_⟩
  · cases st <;>
      simp only [update, elapsedSecs] <;>
      generalize (now - lu) / nanosPerSec = ev <;>
      split_ifs <;> simp_all <;> omega
  · intro hc
    simp only [adjust_focus_time]
    split_ifs with hst <;> simp_all
  · intro hc
    simp only [adjust_break_time]
    split_ifs with hst <;> simp_all

/-- C1, witness for the amended invariant theorem at concrete inputs. -/
theorem C1_invariant_bounds_witness :
    TimerInv (new 1 1 7) ∧
    TimerInv ((new 25 5 0).update 7).1 ∧
    TimerInv ((new 25 5 0).toggle_pause 7) ∧
    TimerInv ((new 25 5 0).reset 7) ∧
    TimerInv ((new 25 5 0).adjust_focus_time 2) ∧
    TimerInv ((new 25 5 0).adjust_break_time 30) := by
  have hf := C1_invariant_bounds (new 25 5 0) (by constructor <;> decide) 1 1 2 7
  have hb := C1_invariant_bounds (new 25 5 0) (by constructor <;> decide) 1 1 30 7
  exact ⟨hf.1, hf.2.1, hf.2.2.1, hf.2.2.2.1,
    hf.2.2.2.2.1 (Or.inl rfl), hb.2.2.2.2.2 (Or.inr (by decide))⟩

/-- C2: with the Focus phase active and the elapsed whole seconds at least
focus_remaining, one accounting step moves to Break, zeroes
focus_remaining, leaves break_remaining unchanged, increments total_cycles
by exactly one, leaves the flash active, and signals a transition. -/
theorem C2_focus_transition (s : PomodoroTimer) (now : Nat)
    (hs : s.state = TimerState.Focus)
    (h : s.focus_remaining ≤ s.elapsedSecs now) :
    (s.update now).1.state = TimerState.Break ∧
    (s.update now).1.focus_remaining = 0 ∧
    (s.update now).1.break_remaining = s.break_remaining ∧
    (s.update now).1.total_cycles = s.total_cycles + 1 ∧
    (s.update now).1.notification_flash = true ∧
    (s.update now).2 = true := by
  obtain ⟨fr, br, fd, bd, st, lu, tc, nf, ft⟩ := s
  simp only [elapsedSecs] at h
  subst hs
  have hcond : ¬ ((now - lu) / nanosPerSec < fr) := by omega
  simp [update, elapsedSecs, hcond]

/-- C2, witness: the spec's end-to-end focus transition at 1500 elapsed
seconds. -/
theorem C2_focus_transition_witness :
    ((new 25 5 0).update (1500 * nanosPerSec)).1.state = TimerState.Break ∧
    ((new 25 5 0).update (1500 * nanosPerSec)).1.focus_remaining = 0 ∧
    ((new 25 5 0).update (1500 * nanosPerSec)).1.break_remaining = 300 ∧
    ((new 25 5 0).update (1500 * nanosPerSec)).1.total_cycles = 0 + 1 ∧
    ((new 25 5 0).update (1500 * nanosPerSec)).1.notification_flash = true ∧
    ((new 25 5 0).update (1500 * nanosPerSec)).2 = true :=
  C2_focus_transition (new 25 5 0) (1500 * nanosPerSec) rfl (by decide)

/-- C3: with the Break phase active and the elapsed whole seconds at least
break_remaining, one accounting step moves to Focus, restores both
remaining times to their configured durations, leaves total_cycles
unchanged, leaves the flash active, and signals a transition. -/
theorem C3_break_transition (s : PomodoroTimer) (now : Nat)
    (hs : s.state = TimerState.Break)
    (h : s.break_remaining ≤ s.elapsedSecs now) :
    (s.update now).1.state = TimerState.Focus ∧
    (s.update now).1.focus_remaining = s.focus_duration ∧
    (s.update now).1.break_remaining = s.break_duration ∧
    (s.update now).1.total_cycles = s.total_cycles ∧
    (s.update now).1.notification_flash = true ∧
    (s.update now).2 = true := by
  obtain ⟨fr, br, fd, bd, st, lu, tc, nf, ft⟩ := s
  simp only [elapsedSecs] at h
  subst hs
  have hcond : ¬ ((now - lu) / nanosPerSec < br) := by omega
  simp [update, elapsedSecs, hcond]

/-- C3, witness: a Break state completing after 300 elapsed seconds. -/
theorem C3_break_transition_witness :
    ((update ⟨0, 300, 1500, 300, TimerState.Break, 0, 1, false, 0⟩
        (300 * nanosPerSec)).1.state = TimerState.Focus) ∧
    ((update ⟨0, 300, 1500, 300, TimerState.Break, 0, 1, false, 0⟩
        (300 * nanosPerSec)).1.focus_remaining = 1500) ∧
    ((update ⟨0, 300, 1500, 300, TimerState.Break, 0, 1, false, 0⟩
        (300 * nanosPerSec)).1.break_remaining = 300) ∧
    ((update ⟨0, 300, 1500, 300, TimerState.Break, 0, 1, false, 0⟩
        (300 * nanosPerSec)).1.total_cycles = 1) ∧
    ((update ⟨0, 300, 1500, 300, TimerState.Break, 0, 1, false, 0⟩
        (300 * nanosPerSec)).1.notification_flash = true) ∧
    ((update ⟨0, 300, 1500, 300, TimerState.Break, 0, 1, false, 0⟩
        (300 * nanosPerSec)).2 = true) :=
  C3_break_transition ⟨0, 300, 1500, 300, TimerState.Break, 0, 1, false, 0⟩
    (300 * nanosPerSec) rfl (by decide)

/-- C4: with Focus or Break active and the elapsed whole seconds strictly
below that phase's remaining time, one accounting step subtracts exactly
the elapsed seconds from that remaining, keeps the phase, and signals no
transition. -/
theorem C4_tick_decrement (s : PomodoroTimer) (now : Nat) :
    (s.state = TimerState.Focus → s.elapsedSecs now < s.focus_remaining →
      (s.update now).1.focus_remaining = s.focus_remaining - s.elapsedSecs now ∧
      (s.update now).1.state = TimerState.Focus ∧
      (s.update now).2 = false) ∧
    (s.state = TimerState.Break → s.elapsedSecs now < s.break_remaining →
      (s.update now).1.break_remaining = s.break_remaining - s.elapsedSecs now ∧
      (s.update now).1.state = TimerState.Break ∧
      (s.update now).2 = false) := by
  obtain ⟨fr, br, fd, bd, st, lu, tc, nf, ft⟩ := s
  simp only [elapsedSecs]
  constructor
  · intro hs h
    subst hs
    simp [update, elapsedSecs, h]
    split <;> simp
  · intro hs h
    subst hs
    simp [update, elapsedSecs, h]
    split <;> simp

/-- C4, witness: ten elapsed seconds tick both an active Focus phase and an
active Break phase down by ten. -/
theorem C4_tick_decrement_witness :
    (((new 25 5 0).update (10 * nanosPerSec)).1.focus_remaining = 1490 ∧
      ((new 25 5 0).update (10 * nanosPerSec)).1.state = TimerState.Focus ∧
      ((new 25 5 0).update (10 * nanosPerSec)).2 = false) ∧
    ((update ⟨0, 300, 1500, 300, TimerState.Break, 0, 1, false, 0⟩
        (10 * nanosPerSec)).1.break_remaining = 290 ∧
      (update ⟨0, 300, 1500, 300, TimerState.Break, 0, 1, false, 0⟩
        (10 * nanosPerSec)).1.state = TimerState.Break ∧
      (update ⟨0, 300, 1500, 300, TimerState.Break, 0, 1, false, 0⟩
        (10 * nanosPerSec)).2 = false) :=
  ⟨(C4_tick_decrement (new 25 5 0) (10 * nanosPerSec)).1 rfl (by decide),
   (C4_tick_decrement ⟨0, 300, 1500, 300, TimerState.Break, 0, 1, false, 0⟩
      (10 * nanosPerSec)).2 rfl (by decide)⟩

/-- C5, counterexample: the flash is not cleared at exactly two seconds
(the source compares with a strict greater-than), and a step that itself
performs a phase transition re-arms the flash timer, so the flash also
survives a step taken long after it was set. In both concrete states below
the flash is active with flash_timer = 0 and at least two seconds have
elapsed, yet the step leaves the flash active. -/
theorem C5_counterexample :
    (update ⟨100, 100, 100, 100, TimerState.Paused, 0, 0, true, 0⟩
      (2 * nanosPerSec)).1.notification_flash = true ∧
    (update ⟨1, 100, 100, 100, TimerState.Focus, 0, 0, true, 0⟩
      (10 * nanosPerSec)).1.notification_flash = true := by
  decide

/-- C5, amended: with the flash active, an accounting step taken strictly
more than two seconds after flash_timer clears the flash provided the step
does not itself signal a phase transition (a transition resets flash_timer
to the present step and keeps the flash active); and any accounting step
taken at most two seconds after flash_timer leaves the flash active. -/
theorem C5_flash_clear (s : PomodoroTimer) (now : Nat)
    (hf : s.notification_flash = true) :
    (2 * nanosPerSec < now - s.flash_timer → (s.update now).2 = false →
      (s.update now).1.notification_flash = false) ∧
    (now - s.flash_timer ≤ 2 * nanosPerSec →
      (s.update now).1.notification_flash = true) := by
  obtain ⟨fr, br, fd, bd, st, lu, tc, nf, ft⟩ := s
  subst hf
  cases st with
  | Focus =>
    by_cases htick : (now - lu) / nanosPerSec < fr
    · constructor
      · intro h1 h2
        simp [update, elapsedSecs, htick, h1]
      · intro h1
        have h1x : now - ft ≤ 2 * nanosPerSec := h1
        have hn : ¬ (2 * nanosPerSec < now - ft) := by omega
        simp [update, elapsedSecs, htick, hn]
    · constructor
      · intro h1 h2
        simp [update, elapsedSecs, htick] at h2
      · intro h1
        simp [update, elapsedSecs, htick, Nat.sub_self]
  | Break =>
    by_cases htick : (now - lu) / nanosPerSec < br
    · constructor
      · intro h1 h2
        simp [update, elapsedSecs, htick, h1]
      · intro h1
        have h1x : now - ft ≤ 2 * nanosPerSec := h1
        have hn : ¬ (2 * nanosPerSec < now - ft) := by omega
        simp [update, elapsedSecs, htick, hn]
    · constructor
      · intro h1 h2
        simp [update, elapsedSecs, htick] at h2
      · intro h1
        simp [update, elapsedSecs, htick, Nat.sub_self]
  | Paused =>
    constructor
    · intro h1 h2
      simp [update, elapsedSecs, h1]
    · intro h1
      have h1x : now - ft ≤ 2 * nanosPerSec := h1
      have hn : ¬ (2 * nanosPerSec < now - ft) := by omega
      simp [update, elapsedSecs, hn]

/-- C5, witness: a paused step ten seconds after the flash was set clears
it, and a paused step one second after leaves it set. -/
theorem C5_flash_clear_witness :
    (update ⟨100, 100, 100, 100, TimerState.Paused, 0, 0, true, 0⟩
      (10 * nanosPerSec)).1.notification_flash = false ∧
    (update ⟨100, 100, 100, 100, TimerState.Paused, 0, 0, true, 0⟩
      (1 * nanosPerSec)).1.notification_flash = true :=
  ⟨(C5_flash_clear ⟨100, 100, 100, 100, TimerState.Paused, 0, 0, true, 0⟩
      (10 * nanosPerSec) rfl).1 (by decide) (by decide),
   (C5_flash_clear ⟨100, 100, 100, 100, TimerState.Paused, 0, 0, true, 0⟩
      (1 * nanosPerSec) rfl).2 (by decide)⟩

/-- C6, counterexample: an accounting step while Paused is not a no-op on
flash_active. In the concrete Paused state below the flash is active and
three seconds have elapsed since flash_timer, and the step clears it. -/
theorem C6_counterexample :
    (update ⟨100, 100, 100, 100, TimerState.Paused, 0, 0, true, 0⟩
      (3 * nanosPerSec)).1.notification_flash = false ∧
    (⟨100, 100, 100, 100, TimerState.Paused, 0, 0, true, 0⟩ :
      PomodoroTimer).notification_flash = true := by
  decide

/-- C6, amended: an accounting step while Paused signals no transition and
leaves the remaining times, the durations, the phase and the cycle count
unchanged, updating only last_update; flash_active is left unchanged except
for the flash auto-clear, which runs even while Paused: afterwards the
flash is active exactly when it was active before and at most two seconds
have elapsed since flash_timer. -/
theorem C6_paused_step (s : PomodoroTimer) (now : Nat)
    (hs : s.state = TimerState.Paused) :
    (s.update now).2 = false ∧
    (s.update now).1.focus_remaining = s.focus_remaining ∧
    (s.update now).1.break_remaining = s.break_remaining ∧
    (s.update now).1.focus_duration = s.focus_duration ∧
    (s.update now).1.break_duration = s.break_duration ∧
    (s.update now).1.state = TimerState.Paused ∧
    (s.update now).1.total_cycles = s.total_cycles ∧
    (s.update now).1.last_update = now ∧
    ((s.update now).1.notification_flash = true ↔
      (s.notification_flash = true ∧ now - s.flash_timer ≤ 2 * nanosPerSec)) := by
  obtain ⟨fr, br, fd, bd, st, lu, tc, nf, ft⟩ := s
  subst hs
  simp only [update, elapsedSecs]
  split <;> (simp_all; try omega)

/-- C6, witness for the amended Paused-step theorem at a concrete state. -/
theorem C6_paused_step_witness :
    (update ⟨100, 200, 300, 400, TimerState.Paused, 0, 7, true, 0⟩ nanosPerSec).2 = false ∧
    (update ⟨100, 200, 300, 400, TimerState.Paused, 0, 7, true, 0⟩
      nanosPerSec).1.focus_remaining = 100 ∧
    (update ⟨100, 200, 300, 400, TimerState.Paused, 0, 7, true, 0⟩
      nanosPerSec).1.break_remaining = 200 ∧
    (update ⟨100, 200, 300, 400, TimerState.Paused, 0, 7, true, 0⟩
      nanosPerSec).1.focus_duration = 300 ∧
    (update ⟨100, 200, 300, 400, TimerState.Paused, 0, 7, true, 0⟩
      nanosPerSec).1.break_duration = 400 ∧
    (update ⟨100, 200, 300, 400, TimerState.Paused, 0, 7, true, 0⟩
      nanosPerSec).1.state = TimerState.Paused ∧
    (update ⟨100, 200, 300, 400, TimerState.Paused, 0, 7, true, 0⟩
      nanosPerSec).1.total_cycles = 7 ∧
    (update ⟨100, 200, 300, 400, TimerState.Paused, 0, 7, true, 0⟩
      nanosPerSec).1.last_update = nanosPerSec ∧
    ((update ⟨100, 200, 300, 400, TimerState.Paused, 0, 7, true, 0⟩
      nanosPerSec).1.notification_flash = true ↔
      (true = true ∧ nanosPerSec - 0 ≤ 2 * nanosPerSec)) :=
  C6_paused_step ⟨100, 200, 300, 400, TimerState.Paused, 0, 7, true, 0⟩ nanosPerSec rfl

/-- C7: toggle_pause sends Focus and Break to Paused and Paused to Focus,
leaves both remaining times, both durations and the cycle count unchanged,
and stamps last_update with the present instant. -/
theorem C7_toggle_pause (s : PomodoroTimer) (now : Nat) :
    ((s.state = TimerState.Focus ∨ s.state = TimerState.Break) →
      (s.toggle_pause now).state = TimerState.Paused) ∧
    (s.state = TimerState.Paused → (s.toggle_pause now).state = TimerState.Focus) ∧
    (s.toggle_pause now).focus_remaining = s.focus_remaining ∧
    (s.toggle_pause now).break_remaining = s.break_remaining ∧
    (s.toggle_pause now).focus_duration = s.focus_duration ∧
    (s.toggle_pause now).break_duration = s.break_duration ∧
    (s.toggle_pause now).total_cycles = s.total_cycles ∧
    (s.toggle_pause now).last_update = now := by
  obtain ⟨fr, br, fd, bd, st, lu, tc, nf, ft⟩ := s
  cases st <;> simp [toggle_pause]

/-- C7, witness: pausing the initial Focus state, and resuming a Paused
state, at concrete instants. -/
theorem C7_toggle_pause_witness :
    ((new 25 5 0).toggle_pause 3).state = TimerState.Paused ∧
    (toggle_pause ⟨1500, 300, 1500, 300, TimerState.Paused, 0, 0, false, 0⟩
      3).state = TimerState.Focus ∧
    ((new 25 5 0).toggle_pause 3).focus_remaining = 1500 ∧
    ((new 25 5 0).toggle_pause 3).last_update = 3 :=
  ⟨(C7_toggle_pause (new 25 5 0) 3).1 (Or.inl rfl),
   (C7_toggle_pause ⟨1500, 300, 1500, 300, TimerState.Paused, 0, 0, false, 0⟩ 3).2.1 rfl,
   (C7_toggle_pause (new 25 5 0) 3).2.2.1,
   (C7_toggle_pause (new 25 5 0) 3).2.2.2.2.2.2.2⟩

/-- C8: reset restores both remaining times to the configured durations,
returns the phase to Focus, clears the flash, leaves total_cycles
unchanged, and is idempotent: a second reset gives the same state as a
single reset performed at the second instant. -/
theorem C8_reset (s : PomodoroTimer) (n1 n2 : Nat) :
    (s.reset n1).focus_remaining = s.focus_duration ∧
    (s.reset n1).break_remaining = s.break_duration ∧
    (s.reset n1).state = TimerState.Focus ∧
    (s.reset n1).notification_flash = false ∧
    (s.reset n1).total_cycles = s.total_cycles ∧
    (s.reset n1).reset n2 = s.reset n2 := by
  obtain ⟨fr, br, fd, bd, st, lu, tc, nf, ft⟩ := s
  simp [reset]

/-- C9: the renderer always returns exactly five rows, every row has length
nine (the glyph width) times the number of input characters, and the empty
string renders as five empty rows. -/
theorem C9_render_shape (s : String) :
    (get_ascii_digits s).length = 5 ∧
    (∀ r ∈ get_ascii_digits s, r.length = 9 * s.length) ∧
    get_ascii_digits "" = ["", "", "", "", ""] := by
  have h := fold_shape s.data (List.replicate 5 "") 0 (by simp) (by simp)
  refine ⟨h.1, ?_, by decide⟩
  intro r hr
  have h2 := h.2 r hr
  have hsl : s.length = s.data.length := rfl
  omega

/-- C9, witness at a concrete clock string. -/
theorem C9_render_shape_witness :
    (get_ascii_digits "12:34").length = 5 ∧
    (∀ r ∈ get_ascii_digits "12:34", r.length = 9 * String.length "12:34") ∧
    get_ascii_digits "" = ["", "", "", "", ""] :=
  C9_render_shape "12:34"

/-- C10: any character that is neither a digit nor a colon is mapped to
the colon glyph (index 10 of the font table), so rendering it equals
rendering a colon and still yields five rows; the renderer is total. -/
theorem C10_unknown_char (c : Char) (hd : ¬ ('0' ≤ c ∧ c ≤ '9')) (hc : c ≠ ':') :
    char_to_index c = 10 ∧
    glyphFor c = digits.getD 10 [] ∧
    get_ascii_digits (String.singleton c) = get_ascii_digits (String.singleton ':') ∧
    (get_ascii_digits (String.singleton c)).length = 5 := by
  have h10 : char_to_index c = 10 := by
    unfold char_to_index
    rw [if_neg hd, if_neg hc]
  have hgl : glyphFor c = digits.getD 10 [] := by
    unfold glyphFor
    rw [h10]
  have hco : glyphFor ':' = digits.getD 10 [] := by decide
  refine ⟨h10, hgl, ?_,
    (fold_shape (String.singleton c).data (List.replicate 5 "") 0 (by simp) (by simp)).1⟩
  have hdata : (String.singleton c).data = [c] := rfl
  have hdatc : (String.singleton ':').data = [':'] := rfl
  simp only [get_ascii_digits, hdata, hdatc, List.foldl_cons, List.foldl_nil, hgl, hco]

/-- C10, witness: a letter renders as the colon glyph. -/
theorem C10_unknown_char_witness :
    char_to_index 'x' = 10 ∧
    glyphFor 'x' = digits.getD 10 [] ∧
    get_ascii_digits (String.singleton 'x') = get_ascii_digits (String.singleton ':') ∧
    (get_ascii_digits (String.singleton 'x')).length = 5 :=
  C10_unknown_char 'x' (by decide) (by decide)

end PomodoroTimer
